import Mathlib

/-!
Shallow embedding of `src/aldryn_newsblog/models.py` (models for translatable
news/blog articles): module-level language configuration, the `Article` model
with its `save`/`slugify` slug-allocation logic, the author get-or-create step,
and the `LatestEntriesPlugin.get_articles` widget query.

Conventions of the embedding:
* Python exceptions are values of `PyError`; a function that can raise returns
  an `Outcome`/`Except`/`Option` error alongside the state it leaves behind.
* The database is an explicit `Store` value.  `super(Article, self).save()` is
  modelled by `baseSave`: an upsert followed by the integrity checks that the
  schema declares (the `('language_code', 'slug')` unique_together on the
  translation table, the `unique=True` content placeholder column).  A failed
  statement leaves the store unchanged and reports a `DbError`.  The store also
  carries an `operFail` flag modelling the storage collaborator failing for a
  non-constraint reason (e.g. a lost connection raising `OperationalError`),
  which §4.2/§7 of the spec require the save path to surface.
* Strings and integers are Lean `String`/`Nat`/`Int`; no overflow is involved.
-/

namespace AldrynNewsblog

/-- Kinds of errors the storage collaborator (database) can signal:
a constraint violation (`django.db.IntegrityError`) or any other backend
failure (represented by `operationalError`). -/
inductive DbError
  | integrityError
  | operationalError
deriving DecidableEq, Repr

/-- Python-level exceptions observable from the modelled code. -/
inductive PyError
  | attributeError          -- access to an attribute the object does not define
  | integrityError          -- django.db.IntegrityError escaping to the caller
  | operationalError        -- any other storage failure escaping to the caller
  | multipleObjectsReturned -- get_or_create found several matching rows
  | improperlyConfigured    -- django.core.exceptions.ImproperlyConfigured
  | valueError              -- e.g. negative queryset slicing
deriving DecidableEq, Repr

/-- How a database error surfaces as a Python exception when uncaught. -/
def DbError.toPy : DbError → PyError
  | .integrityError => .integrityError
  | .operationalError => .operationalError

/-! ## Module initialisation (models.py lines 27-33)

`settings` is the process-wide configuration collaborator.  It is modelled as
a total record: `LANGUAGES` is the configured list of `(code, display name)`
pairs and `LANGUAGE` a single configured code, with the Python falsiness of an
absent value rendered by `[]` / `""` respectively. -/

structure Settings where
  LANGUAGES : List (String × String)
  LANGUAGE : String
deriving DecidableEq, Repr

/-- Lines 27-33: `LANGUAGE_CODES` is computed at import time; if neither
setting is truthy the module raises `ImproperlyConfigured`, so the application
refuses to start. -/
def initLanguageCodes (s : Settings) : Except PyError (List String) :=
  if s.LANGUAGES ≠ [] then
    .ok (s.LANGUAGES.map (fun language => language.1))
  else if s.LANGUAGE ≠ "" then
    .ok [s.LANGUAGE]
  else
    .error .improperlyConfigured

/-! ## `django.utils.text.slugify` (external collaborator, imported line 10)

Modelled from the collaborator's documented behaviour (the spec calls it
"normalize to URL-safe lowercase token sequence"): drop every character that
is not alphanumeric, underscore, hyphen or whitespace; strip surrounding
whitespace; lowercase; collapse each run of hyphens/whitespace into a single
hyphen.  (Unicode word characters are approximated by ASCII alphanumerics;
none of the claims depends on the exact character classes.) -/

def keepChar (c : Char) : Bool :=
  c.isAlphanum || c = '_' || c = '-' || c.isWhitespace

def stripEnds (l : List Char) : List Char :=
  ((l.dropWhile Char.isWhitespace).reverse.dropWhile Char.isWhitespace).reverse

/-- Collapse runs of hyphens and whitespace into single hyphens; the flag
records whether the previously emitted character was such a separator. -/
def collapseSep : List Char → Bool → List Char
  | [], _ => []
  | c :: cs, afterSep =>
    if c = '-' || c.isWhitespace then
      if afterSep then collapseSep cs true
      else '-' :: collapseSep cs true
    else c :: collapseSep cs false

def default_slugify (s : String) : String :=
  String.mk (collapseSep ((stripEnds (s.data.filter keepChar)).map Char.toLower) false)

/-! ## Decimal rendering of a number, for the `"_%d" % i` suffix -/

/-- The ten decimal digit characters (the possible outputs of `"%d"`). -/
def digitChar (d : Nat) : Char :=
  match d with
  | 0 => '0' | 1 => '1' | 2 => '2' | 3 => '3' | 4 => '4'
  | 5 => '5' | 6 => '6' | 7 => '7' | 8 => '8' | _ => '9'

/-- Least-significant-first decimal digits of `n` as characters.  The first
argument is fuel bounding the recursion depth; `n + 1` always suffices since
the value strictly decreases at every division by ten. -/
def natDigitsAux : Nat → Nat → List Char
  | 0, _ => []
  | fuel + 1, n => if n = 0 then [] else digitChar (n % 10) :: natDigitsAux fuel (n / 10)

/-- Standard decimal rendering of a natural number (the value of `"%d" % n`):
most-significant digit first. -/
def natStr (n : Nat) : String :=
  if n = 0 then "0" else String.mk (natDigitsAux (n + 1) n).reverse

/-- The numeric value of a decimal digit character (inverse of `digitChar`). -/
def digitVal (c : Char) : Nat :=
  match c with
  | '0' => 0 | '1' => 1 | '2' => 2 | '3' => 3 | '4' => 4
  | '5' => 5 | '6' => 6 | '7' => 7 | '8' => 8 | _ => 9

/-- The numeric value of a least-significant-first decimal digit string. -/
def digitsVal : List Char → Nat
  | [] => 0
  | c :: cs => digitVal c + 10 * digitsVal cs

/-! ## Data model -/

/-- A row of the author-profile store (`aldryn_people.Person`), an external
collaborator reached through `Person.objects.get_or_create(user=...)`:
its identity, the owning user it is keyed by, and its display name. -/
structure Person where
  id : Nat
  user : Nat
  name : String
deriving DecidableEq, Repr

/-- The non-translatable columns of an `Article` row that the claims observe:
primary key, nullable author reference (line 74), owner reference (line 76),
the content placeholder reference declared `unique=True` (lines 71-73), and
the publishing timestamp (line 81).  The namespace, category, tag, image and
rich-text columns carry no logic or constraints used by any claim and are
omitted. -/
structure ArticleRow where
  id : Nat
  author : Option Nat
  owner : Nat
  content : Nat
  publishing_date : Int
deriving DecidableEq, Repr

/-- A translation row (lines 46-69): owning article, language code, title and
slug.  `meta={'unique_together': (('language_code', 'slug'),)}` (line 68)
declares the per-language slug uniqueness constraint.  The lead-in and SEO
text fields carry no constraints and are omitted. -/
structure TransRow where
  artId : Nat
  language_code : String
  title : String
  slug : String
deriving DecidableEq, Repr

/-- The in-memory `Article` instance being saved, with the current (parler)
translation flattened in: `language_code` is the language of this save,
`title`/`slug` the current translation's fields (`slug = ""` is the blank
`SlugField`, falsy in `if not self.slug`).  `owner_first_name`/
`owner_last_name` are the owning `User`'s name parts read on line 108-109.
Note that the model declares no field named `name`. -/
structure Article where
  id : Nat
  language_code : String
  title : String
  slug : String
  author : Option Nat
  owner : Nat
  owner_first_name : String
  owner_last_name : String
  content : Nat
  publishing_date : Int
deriving DecidableEq, Repr

/-- The persistent state: article rows, translation rows, author-profile rows
(with the id the next created row receives), the configured set of active
languages (what makes a translation "active" for the widget query), and the
flag injecting a non-constraint storage failure. -/
structure Store where
  articles : List ArticleRow
  translations : List TransRow
  persons : List Person
  nextPersonId : Nat
  activeLangs : List String
  operFail : Bool
deriving DecidableEq, Repr

/-! ## The storage collaborator: `super(Article, self).save()` -/

def rowOf (a : Article) : ArticleRow :=
  ⟨a.id, a.author, a.owner, a.content, a.publishing_date⟩

def transOf (a : Article) : TransRow :=
  ⟨a.id, a.language_code, a.title, a.slug⟩

/-- Insert-or-update keyed by primary key (Django saves update the row when
the key already exists, insert otherwise). -/
def upsertArticle (r : ArticleRow) (rows : List ArticleRow) : List ArticleRow :=
  if rows.any (fun x => x.id == r.id) then
    rows.map (fun x => if x.id == r.id then r else x)
  else
    rows ++ [r]

/-- Insert-or-update of the current translation, keyed by
`(master, language_code)` (parler keeps one translation row per article and
language). -/
def upsertTrans (t : TransRow) (rows : List TransRow) : List TransRow :=
  if rows.any (fun x => x.artId == t.artId && x.language_code == t.language_code) then
    rows.map (fun x =>
      if x.artId == t.artId && x.language_code == t.language_code then t else x)
  else
    rows ++ [t]

/-- The `('language_code', 'slug')` unique_together constraint (line 68):
no two translation rows share a language and a slug. -/
def slugUniqueOk : List TransRow → Bool
  | [] => true
  | t :: ts =>
    ts.all (fun u => !(u.language_code == t.language_code && u.slug == t.slug))
      && slugUniqueOk ts

/-- The `unique=True` constraint on the content placeholder column
(lines 71-73): no two article rows share a content reference. -/
def contentUniqueOk : List ArticleRow → Bool
  | [] => true
  | r :: rs => rs.all (fun x => !(x.content == r.content)) && contentUniqueOk rs

def integrityOk (st : Store) : Bool :=
  slugUniqueOk st.translations && contentUniqueOk st.articles

/-- The writes a save issues: upsert the article row and the current
translation row. -/
def applyWrites (a : Article) (st : Store) : Store :=
  { st with
    articles := upsertArticle (rowOf a) st.articles,
    translations := upsertTrans (transOf a) st.translations }

/-- Model of `super(Article, self).save(*args, **kwargs)`: issue the writes, then
enforce the declared constraints.  A violated constraint raises
`IntegrityError` and leaves the store unchanged; a backend failure raises
`OperationalError` without writing.  (Primary-key and per-article-language
uniqueness are maintained structurally by the upserts.) -/
def baseSave (a : Article) (st : Store) : Store × Option DbError :=
  if st.operFail then
    (st, some .operationalError)
  else if integrityOk (applyWrites a st) then
    (applyWrites a st, none)
  else
    (st, some .integrityError)

/-! ## `Article.slugify` (lines 96-100) -/

/-- Lines 96-100, `def slugify(self, category, i=None)`: slugify the argument and, when a
counter is given, append `"_%d" % i`. -/
def Article.slugify (category : String) (i : Option Nat) : String :=
  let slug := default_slugify category
  match i with
  | none => slug
  | some i => slug ++ "_" ++ natStr i

/-- The result of running a save: the final state of the mutated `self`, the
resulting store (writes committed before a failure persist), and the exception
that escaped, if any. -/
structure Outcome where
  article : Article
  store : Store
  error : Option PyError
deriving DecidableEq, Repr

/-! ## Author resolution (lines 103-110) -/

/-- Lines 103-110: when `self.author is None`, fetch or create the `Person`
keyed by the owning user (`get_or_create(user=self.owner, defaults={'name':
' '.join((first_name, last_name))})`).  `get_or_create` raises
`MultipleObjectsReturned` when several rows match; creation appends a fresh
row and commits immediately. -/
def resolveAuthor (a : Article) (st : Store) : Except PyError Article × Store :=
  match a.author with
  | some _ => (.ok a, st)
  | none =>
    match st.persons.filter (fun p => p.user == a.owner) with
    | [] =>
      let p : Person :=
        ⟨st.nextPersonId, a.owner, a.owner_first_name ++ " " ++ a.owner_last_name⟩
      (.ok { a with author := some p.id },
       { st with persons := st.persons ++ [p], nextPersonId := st.nextPersonId + 1 })
    | [p] => (.ok { a with author := some p.id }, st)
    | _ :: _ :: _ => (.error .multipleObjectsReturned, st)

/-! ## The slug fetch and its filter (lines 129-134) -/

/-- Python `s.startswith(p)`. -/
def startswith (s p : String) : Bool :=
  p.data.isPrefixOf s.data

/-- Lines 130-131: `Article.objects.language(lang).exclude(id=self.id)
.values_list('translations__slug', flat=True)`.  parler's `.language(lang)`
only selects the language of the returned wrapper objects — it adds no filter
— and `'translations__slug'` joins to every translation row, so the query
yields the slugs of all translations of every other article in every
language, with a `None` entry for an article that has no translation at all
(left outer join). -/
def fetchSlugs (selfId : Nat) (st : Store) : List (Option String) :=
  st.articles.foldr
    (fun ar acc =>
      if ar.id == selfId then acc
      else
        match (st.translations.filter (fun t => t.artId == ar.id)).map
            (fun t => some t.slug) with
        | [] => none :: acc
        | ts => ts ++ acc)
    []

/-- Lines 132-134: keep the fetched values that are truthy (not `None`, not
empty) and start with `self.slug` (the base). -/
def collectCollisions (base : String) (fetched : List (Option String)) : List String :=
  fetched.filterMap (fun entry =>
    match entry with
    | none => none
    | some s => if s ≠ "" && startswith s base then some s else none)

/-! ## The suffix search (lines 135-141) -/

/-- Line 137 candidate: `self.slugify(self.name, i)`, given the value
`nameVal` that the expression `self.name` would produce. -/
def candidate (nameVal : String) (i : Nat) : String :=
  Article.slugify nameVal (some i)

/-- The `while True` loop of lines 135-141, returning the chosen counter:
starting from `i`, the first counter whose candidate is not among `slugs`.
The fuel argument is only a termination bound; `slugs.length + 1` attempts
always suffice (proved below), so the fuel-exhausted branch is unreachable. -/
def findFrom (nameVal : String) (slugs : List String) : Nat → Nat → Nat
  | 0, i => i
  | fuel + 1, i => if candidate nameVal i ∈ slugs then findFrom nameVal slugs fuel (i + 1) else i

/-- The counter the loop of lines 135-141 terminates with (it starts at 1). -/
def findSuffixIdx (nameVal : String) (slugs : List String) : Nat :=
  findFrom nameVal slugs (slugs.length + 1) 1

/-! ## `Article.save` (lines 102-143) -/

/-- Lines 120-141, entered after the direct save raised `IntegrityError`:
iterate over `LANGUAGE_CODES`; in an iteration, fetch the existing slugs,
filter them against `self.slug` (the base set on line 114), and run the
suffix loop — which always returns, so only the first configured language is
ever consulted.  When `LANGUAGE_CODES` is empty the `for` body never runs and
`save` falls off the end, returning normally *without saving anything*. -/
def suffixPhase (langs : List String) (nameVal : String) (a1 : Article) (st : Store) :
    Outcome :=
  match langs with
  | [] => ⟨a1, st, none⟩
  | _lang :: _ =>
    let slugs := collectCollisions a1.slug (fetchSlugs a1.id st)
    let a2 := { a1 with slug := candidate nameVal (findSuffixIdx nameVal slugs) }
    let r := baseSave a2 st
    ⟨a2, r.1, r.2.map DbError.toPy⟩

/-- Lines 112-143 — the slug branch of `save` — parameterised by the value
`nameVal` that the expression `self.name` would produce on lines 114 and 137.
(`Article` declares no attribute `name`; the full `save` below models that
faithfully.  This factoring gives the semantics of the allocator code itself,
which several claims are about.)  With a blank slug: set `self.slug` to the
slugified name, attempt the direct save, catch exactly `IntegrityError` from
it and fall through to the suffix phase; any other exception propagates.
With a pre-set slug: plain direct save. -/
def saveGivenName (langs : List String) (nameVal : String) (a : Article) (st : Store) :
    Outcome :=
  if a.slug = "" then
    let a1 := { a with slug := Article.slugify nameVal none }
    match baseSave a1 st with
    | (st2, none) => ⟨a1, st2, none⟩
    | (_, some .integrityError) => suffixPhase langs nameVal a1 st
    | (st2, some err) => ⟨a1, st2, some err.toPy⟩
  else
    let r := baseSave a st
    ⟨a, r.1, r.2.map DbError.toPy⟩

/-- Lines 102-143, `Article.save`: resolve the author, then — when no slug is
set for the language being saved — line 114 evaluates `self.name`.  The model
declares no field `name` (`Article` has `title`, `slug`, …), so this access
raises `AttributeError`; the author row created just before remains
committed.  With a pre-set slug the save is passed through directly. -/
def save (_langs : List String) (a : Article) (st : Store) : Outcome :=
  match resolveAuthor a st with
  | (.error e, st1) => ⟨a, st1, some e⟩
  | (.ok a1, st1) =>
    if a1.slug = "" then
      ⟨a1, st1, some .attributeError⟩
    else
      let r := baseSave a1 st1
      ⟨a1, r.1, r.2.map DbError.toPy⟩

/-- A sequence of sequential saves; `none` as soon as one raises. -/
def runSaves (langs : List String) : List Article → Store → Option Store
  | [], st => some st
  | a :: rest, st =>
    match save langs a st with
    | ⟨_, st', none⟩ => runSaves langs rest st'
    | ⟨_, _, some _⟩ => none

/-! ## `LatestEntriesPlugin` (lines 146-168) -/

/-- The widget settings row: the configured count (line 149-152,
`IntegerField(default=5)`). -/
structure LatestEntriesPlugin where
  latest_entries : Int
deriving DecidableEq, Repr

/-- The declared default of `latest_entries`. -/
def latestEntriesDefault : Int := 5

/-- Model of `Article.objects.active_translations()` (parler collaborator), per the
spec's contract: the articles having at least one translation in an active
language. -/
def active_translations (st : Store) : List ArticleRow :=
  st.articles.filter (fun ar =>
    st.translations.any (fun t =>
      t.artId == ar.id && st.activeLangs.contains t.language_code))

/-- Insert into a list kept in descending `publishing_date` order. -/
def insertByDate (a : ArticleRow) : List ArticleRow → List ArticleRow
  | [] => [a]
  | b :: bs =>
    if b.publishing_date ≤ a.publishing_date then a :: b :: bs
    else b :: insertByDate a bs

/-- The default ordering `['-publishing_date']` of `Article.Meta` (lines
85-86), applied to a queryset when it is evaluated. -/
def sortByDateDesc : List ArticleRow → List ArticleRow
  | [] => []
  | a :: rest => insertByDate a (sortByDateDesc rest)

/-- Lines 166-168: `get_articles` evaluates
`Article.objects.active_translations()[:self.latest_entries]` — the active
articles in default order, truncated to the configured count.  It only reads
the store.  Django rejects a negative slice bound with an exception. -/
def get_articles (p : LatestEntriesPlugin) (st : Store) :
    Except PyError (List ArticleRow) :=
  if p.latest_entries < 0 then .error .valueError
  else .ok ((sortByDateDesc (active_translations st)).take p.latest_entries.toNat)

/-! ## Invariant predicates -/

/-- The uniqueness invariant of claim C4: no two translation rows of distinct
articles share a language and a slug. -/
def SlugsUnique (ts : List TransRow) : Prop :=
  ∀ t ∈ ts, ∀ u ∈ ts,
    t.language_code = u.language_code → t.slug = u.slug → t.artId = u.artId

/-- At most one author-profile row per owning user. -/
def OneAuthorPerUser (ps : List Person) : Prop :=
  List.Pairwise (fun p q => p.user ≠ q.user) ps

/-! ## Concrete instances used by the verification scenarios -/

def emptyStore : Store := ⟨[], [], [], 0, ["en"], false⟩

/-- C1 scenario: the store already holds an article whose English slug is
exactly "my-story". -/
def enStore : Store :=
  ⟨[⟨1, some 1, 1, 100, 0⟩], [⟨1, "en", "My Story", "my-story"⟩], [], 0, ["en"], false⟩

/-- C1 scenario: a new article titled "My Story", language "en", no slug set. -/
def c1Article : Article := ⟨2, "en", "My Story", "", some 1, 1, "Jane", "Doe", 101, 0⟩

/-- A blank-slug article with no author set, owned by user 5. -/
def c2Article : Article := ⟨1, "en", "Tale", "", none, 5, "Ann", "Lee", 50, 0⟩

/-- C3 scenario: content placeholder 7 is already taken by article 1, whose
slug "zzz" does not collide with the base "my-story"; a direct save of an
article with content 7 therefore raises `IntegrityError` for a reason other
than the slug constraint. -/
def c3Store : Store :=
  ⟨[⟨1, some 1, 1, 7, 0⟩], [⟨1, "en", "Other", "zzz"⟩], [], 0, ["en"], false⟩

def c3Blank : Article := ⟨2, "en", "B", "", some 1, 1, "J", "D", 7, 0⟩

def c3Base : Article := { c3Blank with slug := "my-story" }

/-- Two articles with pre-set distinct slugs, saved sequentially (C4). -/
def c4ArtA : Article := ⟨1, "en", "A", "apple", some 1, 1, "J", "D", 1, 0⟩

def c4ArtB : Article := ⟨2, "en", "B", "beet", some 1, 1, "J", "D", 2, 0⟩

/-- An article with a pre-set slug (C5). -/
def c5Article : Article := ⟨3, "en", "C", "cherry", some 1, 1, "J", "D", 3, 0⟩

/-- A store holding one author-profile row, for user 5 (C6). -/
def c6Store : Store := ⟨[], [], [⟨3, 5, "Ann Lee"⟩], 4, ["en"], false⟩

def c6Article : Article := ⟨1, "en", "T", "tee", some 3, 5, "Ann", "Lee", 11, 0⟩

/-- Three stored articles, one of which (id 3) has no translation (C7). -/
def c7Store : Store :=
  ⟨[⟨1, some 1, 1, 1, 5⟩, ⟨2, some 1, 1, 2, 9⟩, ⟨3, some 1, 1, 3, 7⟩],
   [⟨1, "en", "One", "one"⟩, ⟨2, "en", "Two", "two"⟩], [], 0, ["en"], false⟩

def c7Plugin : LatestEntriesPlugin := ⟨latestEntriesDefault⟩

def c9Settings : Settings := ⟨[("en", "English"), ("de", "German")], ""⟩

/-! # Lemmas about the decimal suffix -/

theorem data_append (s t : String) : (s ++ t).data = s.data ++ t.data := rfl

theorem digitVal_digitChar {d : Nat} (h : d < 10) : digitVal (digitChar d) = d := by
  interval_cases d <;> rfl

theorem digitsVal_natDigitsAux :
    ∀ fuel n, n < fuel → digitsVal (natDigitsAux fuel n) = n := by
  intro fuel
  induction fuel with
  | zero => intro n h; omega
  | succ fuel ih =>
    intro n h
    simp only [natDigitsAux]
    by_cases h0 : n = 0
    · simp [h0, digitsVal]
    · rw [if_neg h0]
      have h1 : n / 10 < n := Nat.div_lt_self (by omega) (by omega)
      rw [digitsVal, digitVal_digitChar (Nat.mod_lt n (by omega)), ih _ (by omega)]
      omega

theorem natStr_inj {a b : Nat} (h : natStr a = natStr b) : a = b := by
  unfold natStr at h
  by_cases ha : a = 0 <;> by_cases hb : b = 0
  · omega
  · rw [if_pos ha, if_neg hb] at h
    have hd : ['0'] = (natDigitsAux (b + 1) b).reverse := congrArg String.data h
    have hlist : natDigitsAux (b + 1) b = ['0'] := by
      have := congrArg List.reverse hd
      simpa using this.symm
    have hv := digitsVal_natDigitsAux (b + 1) b (by omega)
    rw [hlist] at hv
    simp [digitsVal, digitVal] at hv
    omega
  · rw [if_neg ha, if_pos hb] at h
    have hd : (natDigitsAux (a + 1) a).reverse = ['0'] := congrArg String.data h
    have hlist : natDigitsAux (a + 1) a = ['0'] := by
      have := congrArg List.reverse hd
      simpa using this
    have hv := digitsVal_natDigitsAux (a + 1) a (by omega)
    rw [hlist] at hv
    simp [digitsVal, digitVal] at hv
    omega
  · rw [if_neg ha, if_neg hb] at h
    have hd : (natDigitsAux (a + 1) a).reverse = (natDigitsAux (b + 1) b).reverse :=
      congrArg String.data h
    have hlist := List.reverse_injective hd
    have h1 := digitsVal_natDigitsAux (a + 1) a (by omega)
    have h2 := digitsVal_natDigitsAux (b + 1) b (by omega)
    rw [hlist] at h1
    omega

theorem candidate_inj {nameVal : String} {i j : Nat}
    (h : candidate nameVal i = candidate nameVal j) : i = j := by
  have e : default_slugify nameVal ++ "_" ++ natStr i
      = default_slugify nameVal ++ "_" ++ natStr j := h
  have hdata : (default_slugify nameVal ++ "_").data ++ (natStr i).data
      = (default_slugify nameVal ++ "_").data ++ (natStr j).data := by
    have := congrArg String.data e
    rw [data_append, data_append] at this
    exact this
  have hcancel := List.append_cancel_left hdata
  have h2 : natStr i = natStr j := congrArg String.mk hcancel
  exact natStr_inj h2

/-! # Lemmas about the suffix search (lines 135-141) -/

/-- Pigeonhole: a window of `slugs.length + 1` consecutive candidates cannot
all lie in `slugs`, since distinct counters give distinct candidates. -/
theorem exists_candidate_not_mem (nameVal : String) (slugs : List String) (i : Nat) :
    ∃ j, i ≤ j ∧ j < i + (slugs.length + 1) ∧ candidate nameVal j ∉ slugs := by
  by_contra hc
  push_neg at hc
  have hsub : (List.range (slugs.length + 1)).map (fun k => candidate nameVal (i + k))
      ⊆ slugs := by
    intro s hs
    rw [List.mem_map] at hs
    obtain ⟨k, hk, rfl⟩ := hs
    rw [List.mem_range] at hk
    exact hc (i + k) (Nat.le_add_right i k) (by omega)
  have hinj : Function.Injective (fun k => candidate nameVal (i + k)) := by
    intro x y hxy
    have := candidate_inj hxy
    omega
  have hnd := List.Nodup.map hinj (List.nodup_range (slugs.length + 1))
  have hle := (List.subperm_of_subset hnd hsub).length_le
  rw [List.length_map, List.length_range] at hle
  omega

/-- The loop of lines 136-141: given that some candidate in the fuel window is
free, it stops at the first free counter at or after the start. -/
theorem findFrom_spec (nameVal : String) (slugs : List String) :
    ∀ fuel i, (∃ j, i ≤ j ∧ j < i + fuel ∧ candidate nameVal j ∉ slugs) →
      i ≤ findFrom nameVal slugs fuel i ∧
      candidate nameVal (findFrom nameVal slugs fuel i) ∉ slugs ∧
      ∀ j, i ≤ j → j < findFrom nameVal slugs fuel i → candidate nameVal j ∈ slugs := by
  intro fuel
  induction fuel with
  | zero =>
    rintro i ⟨j, h1, h2, _⟩
    omega
  | succ fuel ih =>
    intro i hex
    by_cases hmem : candidate nameVal i ∈ slugs
    · have hex' : ∃ j, i + 1 ≤ j ∧ j < (i + 1) + fuel ∧ candidate nameVal j ∉ slugs := by
        obtain ⟨j, hj1, hj2, hj3⟩ := hex
        have hne : j ≠ i := by
          rintro rfl
          exact hj3 hmem
        exact ⟨j, by omega, by omega, hj3⟩
      have hrec := ih (i + 1) hex'
      have hstep : findFrom nameVal slugs (fuel + 1) i = findFrom nameVal slugs fuel (i + 1) := by
        simp only [findFrom, if_pos hmem]
      rw [hstep]
      refine ⟨by omega, hrec.2.1, ?_⟩
      intro j hj1 hj2
      by_cases hji : j = i
      · exact hji ▸ hmem
      · exact hrec.2.2 j (by omega) hj2
    · have hstep : findFrom nameVal slugs (fuel + 1) i = i := by
        simp only [findFrom, if_neg hmem]
      rw [hstep]
      exact ⟨Nat.le_refl i, hmem, fun j h1 h2 => absurd (Nat.lt_of_le_of_lt h1 h2) (lt_irrefl i)⟩

/-- The suffix loop, started at counter 1 as on line 135, always terminates:
it returns the least counter `≥ 1` whose candidate is not in the (finite)
collision set. -/
theorem findSuffixIdx_spec (nameVal : String) (slugs : List String) :
    1 ≤ findSuffixIdx nameVal slugs ∧
    candidate nameVal (findSuffixIdx nameVal slugs) ∉ slugs ∧
    ∀ j, 1 ≤ j → j < findSuffixIdx nameVal slugs → candidate nameVal j ∈ slugs := by
  have hex : ∃ j, 1 ≤ j ∧ j < 1 + (slugs.length + 1) ∧ candidate nameVal j ∉ slugs :=
    exists_candidate_not_mem nameVal slugs 1
  have h := findFrom_spec nameVal slugs (slugs.length + 1) 1 hex
  exact h

/-! # Lemmas about the storage layer and `save` -/

theorem slugUniqueOk_spec :
    ∀ ts : List TransRow, slugUniqueOk ts = true →
      ∀ t ∈ ts, ∀ u ∈ ts, t.language_code = u.language_code → t.slug = u.slug → t = u := by
  intro ts
  induction ts with
  | nil =>
    intro _ t ht
    exact absurd ht (List.not_mem_nil t)
  | cons x rest ih =>
    intro h t ht u hu hl hs
    rw [slugUniqueOk, Bool.and_eq_true, List.all_eq_true] at h
    rcases List.mem_cons.mp ht with rfl | ht'
    · rcases List.mem_cons.mp hu with rfl | hu'
      · rfl
      · have hx := h.1 u hu'
        simp [hl.symm, hs.symm] at hx
    · rcases List.mem_cons.mp hu with rfl | hu'
      · have hx := h.1 t ht'
        simp [hl, hs] at hx
      · exact ih h.2 t ht' u hu' hl hs

theorem baseSave_ok_integrity {a : Article} {st st2 : Store}
    (h : baseSave a st = (st2, none)) : integrityOk st2 = true := by
  unfold baseSave at h
  split at h
  · simp at h
  · split at h
    next hint =>
      injection h with h1 h2
      exact h1 ▸ hint
    next hint => simp at h

theorem baseSave_persons (a : Article) (st : Store) :
    (baseSave a st).1.persons = st.persons := by
  unfold baseSave
  split
  · rfl
  · split <;> rfl

theorem resolveAuthor_slug (a : Article) (st : Store) :
    ∀ a2 st1, resolveAuthor a st = (.ok a2, st1) → a2.slug = a.slug := by
  intro a2 st1 h
  unfold resolveAuthor at h
  split at h
  · injection h with h1 h2
    injection h1 with h1
    rw [h1.symm]
  · split at h
    · injection h with h1 h2
      injection h1 with h1
      rw [h1.symm]
    · injection h with h1 h2
      injection h1 with h1
      rw [h1.symm]
    · injection h with h1 h2
      exact absurd h1 (by simp)

theorem resolveAuthor_ok_author (a : Article) (st : Store) :
    ∀ a2 st1, resolveAuthor a st = (.ok a2, st1) → a2.author ≠ none := by
  intro a2 st1 h
  unfold resolveAuthor at h
  split at h
  next x hx =>
    injection h with h1 h2
    injection h1 with h1
    rw [h1.symm, hx]
    simp
  · split at h
    · injection h with h1 h2
      injection h1 with h1
      rw [h1.symm]
      simp
    · injection h with h1 h2
      injection h1 with h1
      rw [h1.symm]
      simp
    · injection h with h1 h2
      exact absurd h1 (by simp)

theorem resolveAuthor_translations (a : Article) (st : Store) :
    (resolveAuthor a st).2.translations = st.translations ∧
    (resolveAuthor a st).2.articles = st.articles ∧
    (resolveAuthor a st).2.operFail = st.operFail := by
  unfold resolveAuthor
  split
  · exact ⟨rfl, rfl, rfl⟩
  · split <;> exact ⟨rfl, rfl, rfl⟩

theorem resolveAuthor_pairwise (a : Article) (st : Store)
    (h : OneAuthorPerUser st.persons) :
    OneAuthorPerUser (resolveAuthor a st).2.persons := by
  unfold resolveAuthor
  split
  · exact h
  · split
    next hf =>
      show OneAuthorPerUser (st.persons ++ [_])
      rw [OneAuthorPerUser, List.pairwise_append]
      refine ⟨h, List.pairwise_singleton .., ?_⟩
      intro x hx b hb
      rw [List.mem_singleton] at hb
      subst hb
      have := List.filter_eq_nil_iff.mp hf x hx
      simpa using this
    · exact h
    · exact h

theorem resolveAuthor_existing (a : Article) (st : Store)
    (h : ∃ p ∈ st.persons, p.user = a.owner) :
    (resolveAuthor a st).2 = st := by
  unfold resolveAuthor
  split
  · rfl
  · split
    next hf =>
      exfalso
      obtain ⟨p, hp, hpu⟩ := h
      have := List.filter_eq_nil_iff.mp hf p hp
      simp [hpu] at this
    · rfl
    · rfl

theorem resolveAuthor_author_some (a : Article) (st : Store)
    (h : a.author ≠ none) : resolveAuthor a st = (.ok a, st) := by
  unfold resolveAuthor
  split
  · rfl
  next hx => exact absurd hx h

theorem save_persons_eq (langs : List String) (a : Article) (st : Store) :
    (save langs a st).store.persons = (resolveAuthor a st).2.persons := by
  unfold save
  rcases hra : resolveAuthor a st with ⟨exc, st1⟩
  cases exc with
  | error e => simp
  | ok a1 =>
    by_cases hs : a1.slug = ""
    · simp [hs]
    · simp only [hs, if_neg, ite_false]
      show (baseSave a1 st1).1.persons = st1.persons
      exact baseSave_persons a1 st1

theorem save_none_slugUnique (langs : List String) (a : Article) (st : Store)
    (h : (save langs a st).error = none) :
    slugUniqueOk (save langs a st).store.translations = true := by
  unfold save at h ⊢
  rcases hra : resolveAuthor a st with ⟨exc, st1⟩
  rw [hra] at h
  cases exc with
  | error e => simp at h
  | ok a1 =>
    dsimp only [] at h ⊢
    by_cases hs : a1.slug = ""
    · rw [if_pos hs] at h
      simp at h
    · rw [if_neg hs] at h ⊢
      rcases hb : baseSave a1 st1 with ⟨st2, e⟩
      dsimp only [] at h ⊢
      cases e with
      | some e => simp [hb] at h
      | none =>
        have := baseSave_ok_integrity hb
        rw [integrityOk, Bool.and_eq_true] at this
        exact this.1

/-! # Lemmas about the widget query (lines 166-168) -/

theorem mem_insertByDate {x a : ArticleRow} :
    ∀ {l : List ArticleRow}, x ∈ insertByDate a l → x = a ∨ x ∈ l := by
  intro l
  induction l with
  | nil =>
    intro h
    simp only [insertByDate] at h
    simpa using h
  | cons b bs ih =>
    intro h
    simp only [insertByDate] at h
    split at h
    · rcases List.mem_cons.mp h with rfl | h'
      · exact Or.inl rfl
      · exact Or.inr h'
    · rcases List.mem_cons.mp h with rfl | h'
      · exact Or.inr (List.mem_cons_self x bs)
      · rcases ih h' with rfl | h''
        · exact Or.inl rfl
        · exact Or.inr (List.mem_cons_of_mem b h'')

theorem pairwise_insertByDate {a : ArticleRow} :
    ∀ {l : List ArticleRow},
      List.Pairwise (fun x y => y.publishing_date ≤ x.publishing_date) l →
      List.Pairwise (fun x y => y.publishing_date ≤ x.publishing_date) (insertByDate a l) := by
  intro l
  induction l with
  | nil =>
    intro _
    simp only [insertByDate]
    exact List.pairwise_singleton _ a
  | cons b bs ih =>
    intro h
    rcases List.pairwise_cons.mp h with ⟨hb, hbs⟩
    simp only [insertByDate]
    split
    next hba =>
      refine List.pairwise_cons.mpr ⟨?_, h⟩
      intro y hy
      rcases List.mem_cons.mp hy with rfl | hy'
      · exact hba
      · exact le_trans (hb y hy') hba
    next hba =>
      refine List.pairwise_cons.mpr ⟨?_, ih hbs⟩
      intro y hy
      rcases mem_insertByDate hy with rfl | hy'
      · omega
      · exact hb y hy'

theorem mem_sortByDateDesc {x : ArticleRow} :
    ∀ {l : List ArticleRow}, x ∈ sortByDateDesc l → x ∈ l := by
  intro l
  induction l with
  | nil =>
    intro h
    simp only [sortByDateDesc] at h
    exact absurd h (List.not_mem_nil x)
  | cons b bs ih =>
    intro h
    simp only [sortByDateDesc] at h
    rcases mem_insertByDate h with rfl | h'
    · exact List.mem_cons_self x bs
    · exact List.mem_cons_of_mem b (ih h')

theorem pairwise_sortByDateDesc :
    ∀ l : List ArticleRow,
      List.Pairwise (fun x y => y.publishing_date ≤ x.publishing_date) (sortByDateDesc l) := by
  intro l
  induction l with
  | nil =>
    simp only [sortByDateDesc]
    exact List.Pairwise.nil
  | cons b bs ih =>
    simp only [sortByDateDesc]
    exact pairwise_insertByDate ih

/-- Author resolution succeeds whenever at most one profile row matches the
owner, preserving the slug and the stored translations. -/
theorem resolveAuthor_ok_of_atMostOne (a : Article) (st : Store)
    (hone : (st.persons.filter (fun p => p.user == a.owner)).length ≤ 1) :
    ∃ a1 st1, resolveAuthor a st = (.ok a1, st1) ∧ a1.slug = a.slug ∧
      st1.translations = st.translations := by
  unfold resolveAuthor
  split
  · exact ⟨a, st, rfl, rfl, rfl⟩
  · split
    · exact ⟨_, _, rfl, rfl, rfl⟩
    · exact ⟨_, _, rfl, rfl, rfl⟩
    next p q rest heq =>
      rw [heq] at hone
      simp [List.length_cons] at hone

/-! # The claims -/

/-- C1: the spec's sequential scenario does not happen on this code.  With an
article whose "en" slug is exactly "my-story" already stored, saving a new
article titled "My Story" in "en" with no slug set does not persist
"my-story_1": line 114 evaluates `self.name`, an attribute `Article` does not
define, so the save raises `AttributeError` and persists nothing. -/
theorem c1_scenario_raises_attribute_error :
    (save ["en"] c1Article enStore).error = some PyError.attributeError ∧
    (save ["en"] c1Article enStore).store = enStore ∧
    ∀ t ∈ (save ["en"] c1Article enStore).store.translations, t.slug ≠ "my-story_1" := by
  refine ⟨rfl, rfl, ?_⟩
  decide

/-- C2: the allocator described by the claim never runs.  For every article
saved with no slug set for the language being saved — whenever the preceding
author step has at most one matching profile row — `save` raises
`AttributeError` at the point where it would compute the base (line 114 reads
the undefined `self.name`, not the title), and no translation is written. -/
theorem c2_allocator_never_runs (langs : List String) (a : Article) (st : Store)
    (hslug : a.slug = "")
    (hone : (st.persons.filter (fun p => p.user == a.owner)).length ≤ 1) :
    (save langs a st).error = some PyError.attributeError ∧
    (save langs a st).store.translations = st.translations := by
  obtain ⟨a1, st1, hra, hsl, htr⟩ := resolveAuthor_ok_of_atMostOne a st hone
  unfold save
  rw [hra]
  dsimp only []
  rw [if_pos (hsl.trans hslug)]
  exact ⟨rfl, htr⟩

/-- Witness for C2 at a concrete blank-slug article. -/
theorem c2_allocator_never_runs_witness :
    (save ["en"] c2Article emptyStore).error = some PyError.attributeError ∧
    (save ["en"] c2Article emptyStore).store.translations = emptyStore.translations :=
  c2_allocator_never_runs ["en"] c2Article emptyStore rfl (by decide)

/-- C9: module initialisation raises the fatal configuration error exactly
when no non-empty language set is configured; with `LANGUAGES` non-empty the
candidate codes are its codes, and with only `LANGUAGE` set, that single
code. -/
theorem c9_language_init (s : Settings) :
    (s.LANGUAGES = [] → s.LANGUAGE = "" →
      initLanguageCodes s = .error PyError.improperlyConfigured) ∧
    (s.LANGUAGES ≠ [] →
      initLanguageCodes s = .ok (s.LANGUAGES.map (fun language => language.1))) ∧
    (s.LANGUAGES = [] → s.LANGUAGE ≠ "" → initLanguageCodes s = .ok [s.LANGUAGE]) := by
  refine ⟨?_, ?_, ?_⟩
  · intro h1 h2
    unfold initLanguageCodes
    rw [if_neg (by simp [h1]), if_neg (by simp [h2])]
  · intro h1
    unfold initLanguageCodes
    rw [if_pos h1]
  · intro h1 h2
    unfold initLanguageCodes
    rw [if_neg (by simp [h1]), if_pos h2]

/-- Witness for C9: a two-language configuration initialises successfully. -/
theorem c9_language_init_witness :
    initLanguageCodes c9Settings = .ok ["en", "de"] := by
  have h := (c9_language_init c9Settings).2.1 (by decide)
  exact h

/-- C10: the collision filter of lines 132-134 keeps exactly the fetched
entries that are present (not `None`), non-empty and start with the base; an
article whose slug is empty or missing therefore never contributes a
collision (in particular the empty slug is never in the set), and with an
empty base exactly the non-empty fetched slugs are collected. -/
theorem c10_collision_filter (base : String) (fetched : List (Option String)) :
    (∀ s : String, s ∈ collectCollisions base fetched ↔
      (some s ∈ fetched ∧ s ≠ "" ∧ startswith s base = true)) ∧
    "" ∉ collectCollisions base fetched ∧
    (∀ s : String, s ∈ collectCollisions "" fetched ↔ (some s ∈ fetched ∧ s ≠ "")) := by
  have hmem : ∀ b s : String, s ∈ collectCollisions b fetched ↔
      (some s ∈ fetched ∧ s ≠ "" ∧ startswith s b = true) := by
    intro b s
    rw [collectCollisions, List.mem_filterMap]
    constructor
    · rintro ⟨entry, hin, hf⟩
      cases entry with
      | none => simp at hf
      | some s2 =>
        dsimp only [] at hf
        split at hf
        next hc =>
          injection hf with hf
          subst hf
          rw [Bool.and_eq_true, decide_eq_true_eq] at hc
          exact ⟨hin, hc.1, hc.2⟩
        next hc => simp at hf
    · rintro ⟨hin, hne, hpre⟩
      refine ⟨some s, hin, ?_⟩
      simp [hne, hpre]
  refine ⟨hmem base, ?_, fun s => ?_⟩
  · intro hc
    rcases (hmem base "").mp hc with ⟨-, hne, -⟩
    exact hne rfl
  · rw [hmem ""]
    constructor
    · rintro ⟨h1, h2, -⟩
      exact ⟨h1, h2⟩
    · rintro ⟨h1, h2⟩
      refine ⟨h1, h2, ?_⟩
      show List.isPrefixOf [] s.data = true
      rcases s with ⟨l⟩
      cases l <;> rfl

theorem slugsUnique_of_bool {ts : List TransRow} (h : slugUniqueOk ts = true) :
    SlugsUnique ts :=
  fun t ht u hu hl hs => congrArg TransRow.artId (slugUniqueOk_spec ts h t ht u hu hl hs)

/-- C4: after any finite sequence of sequential successful saves, no two
translation rows of distinct articles share a language and a slug: every
successful save goes through the storage layer's constraint check, which
enforces the `('language_code', 'slug')` uniqueness. -/
theorem c4_sequential_saves_unique (langs : List String) (arts : List Article)
    (st0 st1 : Store) (h0 : SlugsUnique st0.translations)
    (h : runSaves langs arts st0 = some st1) : SlugsUnique st1.translations := by
  induction arts generalizing st0 with
  | nil =>
    simp only [runSaves] at h
    injection h with h
    exact h ▸ h0
  | cons a rest ih =>
    simp only [runSaves] at h
    rcases ho : save langs a st0 with ⟨a1, stM, err⟩
    rw [ho] at h
    cases err with
    | some e => simp at h
    | none =>
      have herr : (save langs a st0).error = none := by rw [ho]
      have hsl := save_none_slugUnique langs a st0 herr
      rw [ho] at hsl
      exact ih stM (slugsUnique_of_bool hsl) h

/-- Witness for C4: two sequential successful saves from the empty store. -/
theorem c4_sequential_saves_unique_witness :
    SlugsUnique ((runSaves ["en"] [c4ArtA, c4ArtB] emptyStore).getD emptyStore).translations := by
  apply c4_sequential_saves_unique ["en"] [c4ArtA, c4ArtB] emptyStore
  · intro t ht
    exact absurd ht (List.not_mem_nil t)
  · rfl

/-- C5: saving an article whose slug is already set is a direct passthrough:
the outcome is exactly the direct save, independent of the language
configuration and of any name value (the allocator is not invoked), and the
slug field is unchanged; the full `save` also leaves the slug unchanged. -/
theorem c5_preset_slug_passthrough (langs langs2 : List String) (n n2 : String)
    (a : Article) (st : Store) (h : a.slug ≠ "") :
    saveGivenName langs n a st
      = ⟨a, (baseSave a st).1, (baseSave a st).2.map DbError.toPy⟩ ∧
    (saveGivenName langs n a st).article = a ∧
    saveGivenName langs n a st = saveGivenName langs2 n2 a st ∧
    (save langs a st).article.slug = a.slug := by
  have he : ∀ (l : List String) (m : String),
      saveGivenName l m a st
        = ⟨a, (baseSave a st).1, (baseSave a st).2.map DbError.toPy⟩ := by
    intro l m
    unfold saveGivenName
    rw [if_neg h]
  refine ⟨he langs n, by rw [he langs n], (he langs n).trans (he langs2 n2).symm, ?_⟩
  unfold save
  rcases hra : resolveAuthor a st with ⟨exc, st1⟩
  cases exc with
  | error e => rfl
  | ok a1 =>
    have hsl := resolveAuthor_slug a st a1 st1 hra
    dsimp only []
    split <;> exact hsl

/-- Witness for C5 at a concrete pre-set-slug article. -/
theorem c5_preset_slug_passthrough_witness :
    saveGivenName ["en"] "x" c5Article emptyStore
      = ⟨c5Article, (baseSave c5Article emptyStore).1,
          (baseSave c5Article emptyStore).2.map DbError.toPy⟩ ∧
    (saveGivenName ["en"] "x" c5Article emptyStore).article = c5Article ∧
    saveGivenName ["en"] "x" c5Article emptyStore
      = saveGivenName ["de"] "y" c5Article emptyStore ∧
    (save ["en"] c5Article emptyStore).article.slug = c5Article.slug :=
  c5_preset_slug_passthrough ["en"] ["de"] "x" "y" c5Article emptyStore (by decide)

/-- C6: every successful save leaves the article with a non-null author; the
get-or-create step keeps at most one author-profile row per owning user,
creates nothing when a row for the owner already exists, and touches nothing
when the author is already set — so re-saving the same article never creates
a second author row for its user. -/
theorem c6_author_invariant (langs : List String) (a : Article) (st : Store) :
    ((save langs a st).error = none → (save langs a st).article.author ≠ none) ∧
    (OneAuthorPerUser st.persons → OneAuthorPerUser (save langs a st).store.persons) ∧
    ((∃ p ∈ st.persons, p.user = a.owner) → (save langs a st).store.persons = st.persons) ∧
    (a.author ≠ none → (save langs a st).store.persons = st.persons) := by
  refine ⟨?_, ?_, ?_, ?_⟩
  · intro h
    unfold save at h ⊢
    rcases hra : resolveAuthor a st with ⟨exc, st1⟩
    rw [hra] at h
    cases exc with
    | error e => simp at h
    | ok a1 =>
      dsimp only [] at h ⊢
      by_cases hs : a1.slug = ""
      · rw [if_pos hs] at h
        simp at h
      · rw [if_neg hs]
        exact resolveAuthor_ok_author a st a1 st1 hra
  · intro hp
    rw [save_persons_eq]
    exact resolveAuthor_pairwise a st hp
  · intro hex
    rw [save_persons_eq, resolveAuthor_existing a st hex]
  · intro hauth
    rw [save_persons_eq, resolveAuthor_author_some a st hauth]

/-- Witness for C6: a successful concrete save with an existing profile row
for the owner. -/
theorem c6_author_invariant_witness :
    (save ["en"] c6Article c6Store).article.author ≠ none ∧
    OneAuthorPerUser (save ["en"] c6Article c6Store).store.persons ∧
    (save ["en"] c6Article c6Store).store.persons = c6Store.persons := by
  have h := c6_author_invariant ["en"] c6Article c6Store
  exact ⟨h.1 (by decide), h.2.1 (List.pairwise_singleton _ _),
    h.2.2.1 ⟨⟨3, 5, "Ann Lee"⟩, by decide, rfl⟩⟩

/-- C7: with a nonnegative configured count `get_articles` succeeds and
returns at most that many articles, each a stored article with at least one
translation in an active language, in descending publishing-date order; it is
a pure read — it returns a value and changes no store. -/
theorem c7_widget_query (p : LatestEntriesPlugin) (st : Store)
    (h : 0 ≤ p.latest_entries) :
    ∃ l, get_articles p st = .ok l ∧
      l.length ≤ p.latest_entries.toNat ∧
      List.Pairwise (fun x y => y.publishing_date ≤ x.publishing_date) l ∧
      ∀ x ∈ l, x ∈ st.articles ∧ ∃ t ∈ st.translations,
        t.artId = x.id ∧ t.language_code ∈ st.activeLangs := by
  refine ⟨(sortByDateDesc (active_translations st)).take p.latest_entries.toNat,
    ?_, ?_, ?_, ?_⟩
  · unfold get_articles
    rw [if_neg (by omega : ¬p.latest_entries < 0)]
  · rw [List.length_take]
    exact min_le_left _ _
  · exact List.Pairwise.sublist (List.take_sublist _ _) (pairwise_sortByDateDesc _)
  · intro x hx
    have hx' := mem_sortByDateDesc (List.mem_of_mem_take hx)
    rw [active_translations, List.mem_filter] at hx'
    refine ⟨hx'.1, ?_⟩
    have hany := hx'.2
    rw [List.any_eq_true] at hany
    obtain ⟨t, ht, htp⟩ := hany
    rw [Bool.and_eq_true] at htp
    exact ⟨t, ht, by simpa using htp.1, List.elem_iff.mp htp.2⟩

/-- Witness for C7 at the default count of 5: the query succeeds. -/
theorem c7_widget_query_witness :
    (get_articles c7Plugin c7Store).isOk = true := by
  obtain ⟨l, h1, -, -, -⟩ := c7_widget_query c7Plugin c7Store (by decide)
  rw [h1]
  rfl

/-- C8: every save that enters the suffix search terminates: the loop started
at counter 1 over the finite collected collision set stops at a counter `i ≥
1` whose candidate is in no collected slug, every smaller counter collides,
and the article the phase attempts to persist carries exactly that
candidate. -/
theorem c8_suffix_search_terminates (nameVal : String) (a1 : Article) (st : Store)
    (lang : String) (rest : List String) :
    ∃ i, 1 ≤ i ∧
      findSuffixIdx nameVal (collectCollisions a1.slug (fetchSlugs a1.id st)) = i ∧
      candidate nameVal i ∉ collectCollisions a1.slug (fetchSlugs a1.id st) ∧
      (∀ j, 1 ≤ j → j < i →
        candidate nameVal j ∈ collectCollisions a1.slug (fetchSlugs a1.id st)) ∧
      (suffixPhase (lang :: rest) nameVal a1 st).article.slug = candidate nameVal i := by
  obtain ⟨h1, h2, h3⟩ :=
    findSuffixIdx_spec nameVal (collectCollisions a1.slug (fetchSlugs a1.id st))
  exact ⟨_, h1, rfl, h2, h3, rfl⟩

/-- Witness for C8: at a concrete store, the slug the suffix phase attempts
avoids the whole collected collision set. -/
theorem c8_suffix_search_terminates_witness :
    (suffixPhase ["en"] "story" c3Base c3Store).article.slug
      ∉ collectCollisions c3Base.slug (fetchSlugs c3Base.id c3Store) := by
  obtain ⟨i, -, -, hnot, -, hslug⟩ :=
    c8_suffix_search_terminates "story" c3Base c3Store "en" []
  rw [hslug]
  exact hnot

/-- C3: the claimed handling matches the spec's intent (section 7's
taxonomy) but the code cannot exhibit it.  Even at a state where the direct
save of the base slug would be rejected by the content-placeholder constraint
while the `('language_code', 'slug')` constraint is satisfied — precisely the
situation the claim's catch-versus-propagate rule is about — the save raises
`AttributeError` on line 114 (the undefined `self.name`) before the `try`
block: no storage failure is ever raised, caught or retried during a
blank-slug save, the `except IntegrityError` is unreachable, and the store is
untouched. -/
theorem c3_catch_never_reached :
    (baseSave c3Base c3Store).2 = some DbError.integrityError ∧
    slugUniqueOk (applyWrites c3Base c3Store).translations = true ∧
    (save ["en"] c3Blank c3Store).error = some PyError.attributeError ∧
    (save ["en"] c3Blank c3Store).error ≠ some PyError.integrityError ∧
    (save ["en"] c3Blank c3Store).store = c3Store := by
  refine ⟨?_, ?_, ?_, ?_, ?_⟩ <;> decide

/-- Witness for C10 at a concrete fetched list: the empty slug is not
collected, and a matching non-empty slug is collected exactly under the
characterisation. -/
theorem c10_collision_filter_witness :
    "" ∉ collectCollisions "my" [some "my-1", none, some ""] ∧
    ("my-1" ∈ collectCollisions "my" [some "my-1", none, some ""] ↔
      (some "my-1" ∈ [some "my-1", none, some ""] ∧ "my-1" ≠ "" ∧
        startswith "my-1" "my" = true)) :=
  ⟨(c10_collision_filter "my" [some "my-1", none, some ""]).2.1,
   (c10_collision_filter "my" [some "my-1", none, some ""]).1 "my-1"⟩

end AldrynNewsblog
